import Mathlib

/-!
Verification of `cargo-member` (crate `qiaoruntao/cargo-member`).

The repository slice at hand contains the CLI driver (`src/cli.rs`): the
option structures for the eight subcommands, the per-subcommand driver
functions that resolve arguments and hand off to the library operations
(`Include`, `Exclude`, `Deactivate`, `Focus`, `New`, `Cp`, `Rm`, `Mv`),
the `cargo locate-project` wrapper `find_root_manifest`, the path helper
`trim_leading_dots`, and the fatal-error reporter `exit_with_error`.

The membership mutation engine itself (the `exec` implementations of the
library operations and `crate::cargo_metadata`) lives outside this slice;
those parts are modelled from the specification (sections 3, 4.2, 4.3 and
8) and each such definition carries a doc comment starting with
`Modelled from the spec:`.

Paths are modelled as lists of components (`List String`), strings as
Lean `String`.
-/

namespace CargoMember

/-- Modelled from the spec: the root `WorkspaceManifest` restricted to the two
arrays the membership engine mutates, `workspace.members` and
`workspace.exclude` (section 3); every other part of the document is untouched
by the engine and omitted here. -/
structure Manifest where
  members : List String
  exclude : List String
deriving DecidableEq, Repr

/-- Modelled from the spec: removal of one path from one array — "removals
delete exact string matches" (section 4.2). -/
def removeAll (p : String) (l : List String) : List String :=
  l.filter (fun x => x ≠ p)

/-- Modelled from the spec: addition of one path to one array — "additions
insert path strings only if not already present (set semantics layered on an
ordered sequence — new entries appended at the end, preserving prior order of
unaffected entries)" (section 4.2). -/
def addIfAbsent (p : String) (l : List String) : List String :=
  if p ∈ l then l else l ++ [p]

/-- Modelled from the spec: the `Include` list effect — "add path to
`members`; if the path was present in `exclude`, remove it there"
(section 4.3). -/
def includeOp (p : String) (m : Manifest) : Manifest :=
  ⟨addIfAbsent p m.members, removeAll p m.exclude⟩

/-- Modelled from the spec: the `Exclude` list effect — "remove from `members`
if present, add to `exclude`" (section 4.3). -/
def excludeOp (p : String) (m : Manifest) : Manifest :=
  ⟨removeAll p m.members, addIfAbsent p m.exclude⟩

/-- Modelled from the spec: the `Deactivate` list effect — "remove from both
`members` and `exclude`" (section 4.3). -/
def deactivateOp (p : String) (m : Manifest) : Manifest :=
  ⟨removeAll p m.members, removeAll p m.exclude⟩

/-- Modelled from the spec: the `Rm` list effect — "remove their paths from
both `members` and `exclude`" (section 4.3). -/
def rmOp (p : String) (m : Manifest) : Manifest :=
  ⟨removeAll p m.members, removeAll p m.exclude⟩

/-- Modelled from the spec: the `Focus` list effect — "compose Include on the
target path, then Exclude (or Deactivate, if `--exclude` absent) every *other*
currently-active member discovered via workspace metadata. Order matters:
compute the full target member set before mutating" (section 4.3). The
`excludeMode` flag is the CLI `--exclude` flag that the driver
(`src/cli.rs`, `focus`) passes through unchanged. -/
def focusOp (target : String) (excludeMode : Bool) (m : Manifest) : Manifest :=
  let others := m.members.filter (fun p => p ≠ target)
  let start := includeOp target m
  others.foldl (fun acc p => if excludeMode then excludeOp p acc else deactivateOp p acc) start

/-- Modelled from the spec: the eight user-facing operations, reduced to their
effect on the two membership arrays (section 4.3). `new` creates the package
directory then runs Include; `cp` copies the directory then Includes the
destination; `mv` is "Copy followed by Remove of the original". -/
inductive Op where
  | incl (p : String)
  | excl (p : String)
  | deact (p : String)
  | focus (target : String) (excludeMode : Bool)
  | new (p : String)
  | cp (dst : String)
  | rm (p : String)
  | mv (src dst : String)
deriving DecidableEq, Repr

/-- Modelled from the spec: the list effect of one completed operation on the
root manifest (section 4.3). -/
def runOp : Op → Manifest → Manifest
  | .incl p, m => includeOp p m
  | .excl p, m => excludeOp p m
  | .deact p, m => deactivateOp p m
  | .focus t e, m => focusOp t e m
  | .new p, m => includeOp p m
  | .cp dst, m => includeOp dst m
  | .rm p, m => rmOp p m
  | .mv src dst, m => rmOp src (includeOp dst m)

/-- The disjointness invariant of section 3: no path appears in both
`members` and `exclude` simultaneously. -/
def noOverlap (m : Manifest) : Prop :=
  ∀ p ∈ m.members, p ∉ m.exclude

instance (m : Manifest) : Decidable (noOverlap m) := by
  unfold noOverlap; exact List.decidableBAll _ _

theorem mem_addIfAbsent {x p : String} {l : List String} :
    x ∈ addIfAbsent p l ↔ x ∈ l ∨ x = p := by
  unfold addIfAbsent
  by_cases h : p ∈ l
  · simp only [if_pos h]
    constructor
    · exact Or.inl
    · rintro (hx | rfl)
      · exact hx
      · exact h
  · simp [if_neg h]

theorem mem_removeAll {x p : String} {l : List String} :
    x ∈ removeAll p l ↔ x ∈ l ∧ x ≠ p := by
  unfold removeAll
  simp

theorem self_mem_addIfAbsent (p : String) (l : List String) :
    p ∈ addIfAbsent p l :=
  mem_addIfAbsent.mpr (Or.inr rfl)

theorem removeAll_of_not_mem {p : String} {l : List String} (h : p ∉ l) :
    removeAll p l = l := by
  unfold removeAll
  apply List.filter_eq_self.mpr
  intro x hx
  simp only [ne_eq, decide_eq_true_eq]
  rintro rfl
  exact h hx

theorem noOverlap_includeOp {m : Manifest} (p : String) (h : noOverlap m) :
    noOverlap (includeOp p m) := by
  intro x hx hx'
  rw [includeOp] at hx hx'
  simp only at hx hx'
  rcases mem_addIfAbsent.mp hx with hmem | rfl
  · exact h x hmem (mem_removeAll.mp hx').1
  · exact (mem_removeAll.mp hx').2 rfl

theorem noOverlap_excludeOp {m : Manifest} (p : String) (h : noOverlap m) :
    noOverlap (excludeOp p m) := by
  intro x hx hx'
  rw [excludeOp] at hx hx'
  simp only at hx hx'
  obtain ⟨hmem, hne⟩ := mem_removeAll.mp hx
  rcases mem_addIfAbsent.mp hx' with hexc | rfl
  · exact h x hmem hexc
  · exact hne rfl

theorem noOverlap_deactivateOp {m : Manifest} (p : String) (h : noOverlap m) :
    noOverlap (deactivateOp p m) := by
  intro x hx hx'
  rw [deactivateOp] at hx hx'
  simp only at hx hx'
  exact h x (mem_removeAll.mp hx).1 (mem_removeAll.mp hx').1

theorem noOverlap_rmOp {m : Manifest} (p : String) (h : noOverlap m) :
    noOverlap (rmOp p m) :=
  noOverlap_deactivateOp p h

theorem noOverlap_foldl {f : Manifest → String → Manifest}
    (hf : ∀ a x, noOverlap a → noOverlap (f a x)) :
    ∀ (l : List String) (a : Manifest), noOverlap a → noOverlap (l.foldl f a) := by
  intro l
  induction l with
  | nil => intro a ha; exact ha
  | cons x xs ih => intro a ha; exact ih (f a x) (hf a x ha)

theorem noOverlap_focusOp {m : Manifest} (t : String) (e : Bool) (h : noOverlap m) :
    noOverlap (focusOp t e m) := by
  rw [focusOp]
  apply noOverlap_foldl
  · intro a x ha
    by_cases he : e = true
    · simpa [he] using noOverlap_excludeOp x ha
    · simp only [Bool.not_eq_true] at he
      simpa [he] using noOverlap_deactivateOp x ha
  · exact noOverlap_includeOp t h

theorem noOverlap_runOp {m : Manifest} (op : Op) (h : noOverlap m) :
    noOverlap (runOp op m) := by
  cases op with
  | incl p => exact noOverlap_includeOp p h
  | excl p => exact noOverlap_excludeOp p h
  | deact p => exact noOverlap_deactivateOp p h
  | focus t e => exact noOverlap_focusOp t e h
  | new p => exact noOverlap_includeOp p h
  | cp dst => exact noOverlap_includeOp dst h
  | rm p => exact noOverlap_rmOp p h
  | mv src dst => exact noOverlap_rmOp src (noOverlap_includeOp dst h)

theorem removeAll_append (p : String) (l l' : List String) :
    removeAll p (l ++ l') = removeAll p l ++ removeAll p l' := by
  unfold removeAll
  exact List.filter_append l l'

theorem removeAll_singleton_self (p : String) : removeAll p [p] = [] := by
  simp [removeAll]

/-- Modelled from the spec: a `MembershipDelta` — "the set of paths to add to
members, remove from members, add to exclude, remove from exclude, computed
before any disk write" (section 3). -/
structure MembershipDelta where
  members_add : List String
  members_remove : List String
  exclude_add : List String
  exclude_remove : List String
deriving DecidableEq, Repr

/-- Modelled from the spec: applying all removals of a delta to one array
(section 4.2, "removals delete exact string matches"). -/
def removeList (ps : List String) (l : List String) : List String :=
  l.filter (fun x => x ∉ ps)

/-- Modelled from the spec: applying all additions of a delta to one array, in
order (section 4.2, "additions insert path strings only if not already
present ... new entries appended at the end"). -/
def addAll (ps : List String) (l : List String) : List String :=
  ps.foldl (fun acc p => addIfAbsent p acc) l

/-- Modelled from the spec: `apply(delta)` of the Manifest Store — removals
delete exact string matches, then additions insert paths not already present,
appended at the end (section 4.2). -/
def applyDelta (d : MembershipDelta) (m : Manifest) : Manifest :=
  ⟨addAll d.members_add (removeList d.members_remove m.members),
   addAll d.exclude_add (removeList d.exclude_remove m.exclude)⟩

/-- Deltas actually produced by the operations of section 4.3 never both add
and remove the same path within one array. -/
def wellFormedDelta (d : MembershipDelta) : Prop :=
  (∀ p ∈ d.members_add, p ∉ d.members_remove) ∧
    (∀ p ∈ d.exclude_add, p ∉ d.exclude_remove)

instance (d : MembershipDelta) : Decidable (wellFormedDelta d) := by
  unfold wellFormedDelta; exact instDecidableAnd

/-- Modelled from the spec: the delta computed by `Include` for a single path
(section 4.3 — add to `members`, remove from `exclude`). -/
def includeDelta (p : String) : MembershipDelta :=
  ⟨[p], [], [], [p]⟩

theorem removeList_removeList (ps : List String) (l : List String) :
    removeList ps (removeList ps l) = removeList ps l := by
  unfold removeList
  rw [List.filter_filter]
  simp

theorem mem_addAll_of_mem {x : String} (ps : List String) {l : List String}
    (h : x ∈ l) : x ∈ addAll ps l := by
  induction ps generalizing l with
  | nil => exact h
  | cons p ps ih => exact ih (mem_addIfAbsent.mpr (Or.inl h))

theorem addIfAbsent_of_mem {x : String} {l : List String} (h : x ∈ l) :
    addIfAbsent x l = l := by
  unfold addIfAbsent
  exact if_pos h

theorem removeList_addIfAbsent {a : String} {ps : List String} (l : List String)
    (h : a ∉ ps) :
    removeList ps (addIfAbsent a l) = addIfAbsent a (removeList ps l) := by
  by_cases hm : a ∈ l
  · rw [addIfAbsent_of_mem hm, addIfAbsent_of_mem]
    unfold removeList
    simp only [List.mem_filter, decide_eq_true_eq]
    exact ⟨hm, h⟩
  · have hm' : a ∉ removeList ps l := by
      unfold removeList
      simp only [List.mem_filter, decide_eq_true_eq]
      intro hc
      exact hm hc.1
    rw [addIfAbsent, if_neg hm, addIfAbsent, if_neg hm']
    unfold removeList
    rw [List.filter_append]
    simp [h]

theorem removeList_addAll {ad : List String} (rm l : List String)
    (h : ∀ a ∈ ad, a ∉ rm) :
    removeList rm (addAll ad l) = addAll ad (removeList rm l) := by
  induction ad generalizing l with
  | nil => rfl
  | cons a ad ih =>
    have ha : a ∉ rm := h a (List.mem_cons_self a ad)
    have hrest : ∀ b ∈ ad, b ∉ rm := fun b hb => h b (List.mem_cons_of_mem a hb)
    show removeList rm (addAll ad (addIfAbsent a l)) = addAll ad (addIfAbsent a (removeList rm l))
    rw [ih (addIfAbsent a l) hrest, removeList_addIfAbsent l ha]

theorem addAll_addAll (ps l : List String) :
    addAll ps (addAll ps l) = addAll ps l := by
  induction ps generalizing l with
  | nil => rfl
  | cons a ps ih =>
    show addAll ps (addIfAbsent a (addAll ps (addIfAbsent a l)))
        = addAll ps (addIfAbsent a l)
    have ha : a ∈ addAll ps (addIfAbsent a l) :=
      mem_addAll_of_mem ps (self_mem_addIfAbsent a l)
    rw [addIfAbsent_of_mem ha, ih]

theorem applyDelta_idem {d : MembershipDelta} (m : Manifest)
    (h : wellFormedDelta d) : applyDelta d (applyDelta d m) = applyDelta d m := by
  obtain ⟨h1, h2⟩ := h
  unfold applyDelta
  simp only [Manifest.mk.injEq]
  constructor
  · rw [removeList_addAll _ _ h1, removeList_removeList, addAll_addAll]
  · rw [removeList_addAll _ _ h2, removeList_removeList, addAll_addAll]

theorem wellFormedDelta_includeDelta (p : String) :
    wellFormedDelta (includeDelta p) := by
  constructor
  · intro q _ hq
    exact absurd hq (List.not_mem_nil q)
  · intro q hq
    exact absurd hq (List.not_mem_nil q)

/-- The `Include` delta applied through the Manifest Store coincides with the
direct `Include` list effect. -/
theorem includeOp_eq_applyDelta (p : String) (m : Manifest) :
    includeOp p m = applyDelta (includeDelta p) m := by
  unfold includeOp applyDelta includeDelta addAll removeList removeAll
  simp only [Manifest.mk.injEq, List.foldl_cons, List.foldl_nil]
  constructor
  · congr 1
    apply (List.filter_eq_self.mpr _).symm
    intro x _
    simp
  · apply List.filter_congr
    intro x _
    simp

/-- Whether the operation performs physical directory work when it is allowed
to touch the filesystem (section 4.3: `new` creates a directory, `cp` copies a
tree, `rm` deletes trees, `mv` copies then deletes; the pure membership
operations touch only the manifest). -/
def fsTouches : Op → Bool
  | .incl _ => false
  | .excl _ => false
  | .deact _ => false
  | .focus _ _ => false
  | .new _ => true
  | .cp _ => true
  | .rm _ => true
  | .mv _ _ => true

/-- Modelled from the spec: the observable outcome of one driver run — the
membership result the operation computes and reports, the manifest write (if
any), and whether any directory tree was created, copied or removed
(sections 2, 4.2). -/
structure ExecOutcome where
  reported : Manifest
  written : Option Manifest
  fsChanged : Bool
deriving DecidableEq, Repr

/-- Modelled from the spec: one full operation run. The result set is computed
before any disk write (section 3, `MembershipDelta` "computed before any disk
write"); under dry-run the commit "is skipped entirely" and no filesystem
change happens, while the same result set is still computed and reported
(sections 1, 4.2, 8). -/
def execOp (op : Op) (dry_run : Bool) (m : Manifest) : ExecOutcome :=
  let result := runOp op m
  { reported := result
    written := if dry_run then none else some result
    fsChanged := if dry_run then false else fsTouches op }

/-! ## The CLI driver (`src/cli.rs`)

Paths are lists of components. `PathBuf::pop` drops the final component and
`cwd.join(p)` appends a relative `p` to `cwd`. -/

/-- `trim_leading_dots` from `src/cli.rs` (lines 679–688): repeatedly
`strip_prefix(".")` while it succeeds, i.e. drop leading current-directory
components. -/
def trim_leading_dots : List String → List String
  | [] => []
  | c :: rest => if c = "." then trim_leading_dots rest else c :: rest

/-- The argument resolution every driver applies to a user-supplied relative
path argument: `cwd.join(p.trim_leading_dots())` (`src/cli.rs`, e.g. lines
457, 481, 503, 525, 555, 584, 608, 632). -/
def resolveArg (cwd : List String) (p : List String) : List String :=
  cwd ++ trim_leading_dots p

/-- `CargoMemberInclude` (`src/cli.rs`, lines 80–109), restricted to the
fields the driver destructures. -/
structure CargoMemberInclude where
  manifest_path : Option (List String)
  offline : Bool
  force : Bool
  dry_run : Bool
  paths : List (List String)

/-- `CargoMemberExclude` (`src/cli.rs`, lines 111–140). -/
structure CargoMemberExclude where
  package : List String
  manifest_path : Option (List String)
  offline : Bool
  dry_run : Bool
  paths : List (List String)

/-- `CargoMemberDeactivate` (`src/cli.rs`, lines 142–171). -/
structure CargoMemberDeactivate where
  package : List String
  manifest_path : Option (List String)
  offline : Bool
  dry_run : Bool
  paths : List (List String)

/-- `CargoMemberFocus` (`src/cli.rs`, lines 173–202). The `exclude` flag adds
the other packages to `workspace.exclude`; it is a plain boolean flag, absent
by default. -/
structure CargoMemberFocus where
  exclude : Bool
  dry_run : Bool
  manifest_path : Option (List String)
  offline : Bool
  path : List String

/-- `CargoMemberNew` (`src/cli.rs`, lines 204–249), restricted to the fields
relevant here. -/
structure CargoMemberNew where
  manifest_path : Option (List String)
  offline : Bool
  dry_run : Bool
  path : List String

/-- `CargoMemberCp` (`src/cli.rs`, lines 251–283). -/
structure CargoMemberCp where
  manifest_path : Option (List String)
  offline : Bool
  dry_run : Bool
  no_rename : Bool
  src : String
  dst : List String

/-- `CargoMemberRm` (`src/cli.rs`, lines 285–318). -/
structure CargoMemberRm where
  package : List String
  manifest_path : Option (List String)
  offline : Bool
  force : Bool
  dry_run : Bool
  paths : List (List String)

/-- `CargoMemberMv` (`src/cli.rs`, lines 320–352). -/
structure CargoMemberMv where
  manifest_path : Option (List String)
  offline : Bool
  dry_run : Bool
  no_rename : Bool
  src : String
  dst : List String

/-- The arguments a driver passes to `crate::cargo_metadata(manifest_path,
frozen, locked, offline, cwd)`. -/
structure CargoMetadataArgs where
  manifest_path : Option (List String)
  frozen : Bool
  locked : Bool
  offline : Bool

/-- The `cargo_metadata` call of the `exclude` driver (`src/cli.rs`, lines
479–480): `crate::cargo_metadata(manifest_path.as_deref(), dry_run, dry_run,
offline, &cwd)`. -/
def excludeMetadataCall (opt : CargoMemberExclude) : CargoMetadataArgs :=
  ⟨opt.manifest_path, opt.dry_run, opt.dry_run, opt.offline⟩

/-- The `cargo_metadata` call of the `deactivate` driver (`src/cli.rs`, lines
501–502). -/
def deactivateMetadataCall (opt : CargoMemberDeactivate) : CargoMetadataArgs :=
  ⟨opt.manifest_path, opt.dry_run, opt.dry_run, opt.offline⟩

/-- The `cargo_metadata` call of the `focus` driver (`src/cli.rs`, lines
523–524). -/
def focusMetadataCall (opt : CargoMemberFocus) : CargoMetadataArgs :=
  ⟨opt.manifest_path, opt.dry_run, opt.dry_run, opt.offline⟩

/-- The `cargo_metadata` call of the `cp` driver (`src/cli.rs`, lines
582–583). -/
def cpMetadataCall (opt : CargoMemberCp) : CargoMetadataArgs :=
  ⟨opt.manifest_path, opt.dry_run, opt.dry_run, opt.offline⟩

/-- The `cargo_metadata` call of the `rm` driver (`src/cli.rs`, lines
606–607). -/
def rmMetadataCall (opt : CargoMemberRm) : CargoMetadataArgs :=
  ⟨opt.manifest_path, opt.dry_run, opt.dry_run, opt.offline⟩

/-- The `cargo_metadata` call of the `mv` driver (`src/cli.rs`, lines
630–631). -/
def mvMetadataCall (opt : CargoMemberMv) : CargoMetadataArgs :=
  ⟨opt.manifest_path, opt.dry_run, opt.dry_run, opt.offline⟩

/-- Resolved path arguments of the `include` driver (`src/cli.rs`, line 457). -/
def includePathArgs (cwd : List String) (opt : CargoMemberInclude) : List (List String) :=
  opt.paths.map (resolveArg cwd)

/-- Resolved path arguments of the `exclude` driver (`src/cli.rs`, line 481). -/
def excludePathArgs (cwd : List String) (opt : CargoMemberExclude) : List (List String) :=
  opt.paths.map (resolveArg cwd)

/-- Resolved path arguments of the `deactivate` driver (`src/cli.rs`, line 503). -/
def deactivatePathArgs (cwd : List String) (opt : CargoMemberDeactivate) : List (List String) :=
  opt.paths.map (resolveArg cwd)

/-- Resolved path argument of the `focus` driver (`src/cli.rs`, line 525). -/
def focusPathArg (cwd : List String) (opt : CargoMemberFocus) : List String :=
  resolveArg cwd opt.path

/-- Resolved path argument of the `new` driver (`src/cli.rs`, line 555). -/
def newPathArg (cwd : List String) (opt : CargoMemberNew) : List String :=
  resolveArg cwd opt.path

/-- Resolved destination argument of the `cp` driver (`src/cli.rs`, line 584). -/
def cpDstArg (cwd : List String) (opt : CargoMemberCp) : List String :=
  resolveArg cwd opt.dst

/-- Resolved path arguments of the `rm` driver (`src/cli.rs`, line 608). -/
def rmPathArgs (cwd : List String) (opt : CargoMemberRm) : List (List String) :=
  opt.paths.map (resolveArg cwd)

/-- Resolved destination argument of the `mv` driver (`src/cli.rs`, line 632). -/
def mvDstArg (cwd : List String) (opt : CargoMemberMv) : List String :=
  resolveArg cwd opt.dst

theorem trim_leading_dots_eq_dropWhile (p : List String) :
    trim_leading_dots p = p.dropWhile (fun c => c = ".") := by
  induction p with
  | nil => rfl
  | cons c rest ih =>
    by_cases hc : c = "."
    · rw [trim_leading_dots, if_pos hc, ih, List.dropWhile_cons_of_pos]
      simp [hc]
    · rw [trim_leading_dots, if_neg hc, List.dropWhile_cons_of_neg]
      simp [hc]

theorem trim_leading_dots_head_ne_dot (p : List String) :
    ¬ (trim_leading_dots p).head? = some "." := by
  induction p with
  | nil => simp [trim_leading_dots]
  | cons c rest ih =>
    by_cases hc : c = "."
    · rw [trim_leading_dots, if_pos hc]
      exact ih
    · rw [trim_leading_dots, if_neg hc]
      simp only [List.head?_cons, Option.some.injEq]
      exact hc

/-! ## `cargo locate-project` wrapper and fatal-error reporting -/

/-- `str::trim_end`: drop trailing whitespace (`src/cli.rs`, lines 662–663). -/
def trimEnd (s : String) : String :=
  ⟨(s.data.reverse.dropWhile Char.isWhitespace).reverse⟩

/-- `trim_start_matches("error: ")` on a character list: repeatedly strip the
leading occurrence of `error: ` (`src/cli.rs`, line 666). -/
def stripErrorMarkers : List Char → List Char
  | 'e' :: 'r' :: 'r' :: 'o' :: 'r' :: ':' :: ' ' :: rest => stripErrorMarkers rest
  | cs => cs

/-- `stderr.trim_start_matches("error: ")` as used on the captured standard
error of `cargo locate-project` (`src/cli.rs`, line 666). -/
def stripErrorMarkersStr (s : String) : String :=
  ⟨stripErrorMarkers s.data⟩

/-- The captured outcome of the spawned `cargo locate-project` process:
`output.status.success()` plus the captured standard output and standard
error (`src/cli.rs`, lines 655–663). -/
structure CmdOutput where
  success : Bool
  stdout : String
  stderr : String

/-- `cargo_locate_project` (`src/cli.rs`, lines 646–676): trim the captured
streams; on nonzero exit fail with the trimmed standard error minus any
leading `error: ` markers; otherwise parse the standard output as the
`ProjectLocation` JSON payload and return its `root` field, propagating the
parse error verbatim. `parse` stands for `serde_json::from_str` projected to
the `root` path; the call is made exactly once — there is no retry. -/
def cargo_locate_project (parse : String → Except String (List String))
    (out : CmdOutput) : Except String (List String) :=
  if out.success then parse (trimEnd out.stdout)
  else .error (stripErrorMarkersStr (trimEnd out.stderr))

/-- `find_root_manifest` (`src/cli.rs`, lines 641–645): run
`cargo_locate_project`, then `path.pop()` — drop the final component of the
reported manifest path, yielding the directory containing it. -/
def find_root_manifest (parse : String → Except String (List String))
    (out : CmdOutput) : Except String (List String) :=
  match cargo_locate_project parse out with
  | .ok path => .ok path.dropLast
  | .error e => .error e

/-- The arguments the `include` driver passes to `Include::new` and its
builder methods (`src/cli.rs`, lines 459–464). -/
structure IncludeInvocation where
  workspace_root : List String
  paths : List (List String)
  force : Bool
  offline : Bool
  dry_run : Bool
deriving DecidableEq

/-- The `include` driver (`src/cli.rs`, lines 444–465): locate the
possibly-empty workspace root via `find_root_manifest` (propagating its error
with `?`), resolve the path arguments against the current working directory,
and hand everything to `Include`. -/
def includeDriver (parse : String → Except String (List String))
    (out : CmdOutput) (cwd : List String) (opt : CargoMemberInclude) :
    Except String IncludeInvocation :=
  match find_root_manifest parse out with
  | .error e => .error e
  | .ok root => .ok ⟨root, opt.paths.map (resolveArg cwd), opt.force, opt.offline, opt.dry_run⟩

/-- An `anyhow` error chain: the top-level message followed by the causes, in
chain order (`error.chain().skip(1)`). -/
structure ErrorChain where
  message : String
  causes : List String

/-- `exit_with_error` (`src/cli.rs`, lines 406–429), with terminal coloring
abstracted away: write `error: `, the top-level message and a newline, then
for each cause a blank line, `Caused by:` and the indented cause message;
finally exit with status 101. Returns the text written to standard error and
the exit code. -/
def exit_with_error (e : ErrorChain) : String × Nat :=
  (e.causes.foldl (fun acc c => acc ++ ("\nCaused by:\n  " ++ c ++ "\n"))
    ("error: " ++ e.message ++ "\n"), 101)

theorem string_ext {a b : String} (h : a.data = b.data) : a = b := by
  cases a with
  | mk d1 =>
    cases b with
    | mk d2 => exact congrArg String.mk h

theorem string_join_cons (a : String) (l : List String) :
    String.join (a :: l) = a ++ String.join l := by
  apply string_ext
  simp

theorem foldl_append_chunks (f : String → String) (l : List String) :
    ∀ init : String, l.foldl (fun acc c => acc ++ f c) init = init ++ String.join (l.map f) := by
  induction l with
  | nil => intro init; simp [String.join, String.append_empty]
  | cons c cs ih =>
    intro init
    simp only [List.foldl_cons, List.map_cons]
    rw [ih (init ++ f c), string_join_cons, String.append_assoc]

/-! ## Claims -/

/-- C1 (counterexample): on `members = ["a", "b"]`, `exclude = []`, Focus on
`b` in default mode (the `--exclude` flag absent, hence `false`) does NOT
yield `exclude = ["a"]`: the other member `a` is deactivated, not excluded. -/
theorem c1_counterexample :
    ¬ (focusOp "b" false ⟨["a", "b"], []⟩ = ⟨["b"], ["a"]⟩) := by
  decide

/-- C1 (amended): on `members = ["a", "b"]`, `exclude = []`, Focus on `b`
with `--exclude` yields `members = ["b"]`, `exclude = ["a"]`; in default
(deactivate) mode it yields `members = ["b"]`, `exclude = []`. -/
theorem c1_focus_scenario :
    focusOp "b" true ⟨["a", "b"], []⟩ = ⟨["b"], ["a"]⟩ ∧
      focusOp "b" false ⟨["a", "b"], []⟩ = ⟨["b"], []⟩ := by
  decide

/-- C2 (counterexample): the claim quantifies over every manifest, including
ones that already violate disjointness; running Include on an unrelated path
leaves the pre-existing overlap in place, so a path appears in both lists
after a completed operation. -/
theorem c2_counterexample :
    ¬ noOverlap (runOp (Op.incl "y") ⟨["x"], ["x"]⟩) := by
  decide

/-- C2 (amended): for every manifest whose `members` and `exclude` lists are
disjoint beforehand, after any single completed operation (include, exclude,
deactivate, focus, new, cp, rm, mv) no path appears in both lists. -/
theorem c2_noOverlap_preserved (m : Manifest) (op : Op) (h : noOverlap m) :
    noOverlap (runOp op m) :=
  noOverlap_runOp op h

/-- C2 (witness): a concrete disjoint manifest stays disjoint across an
exclude operation. -/
theorem c2_witness :
    noOverlap (runOp (Op.excl "a") ⟨["a"], ["b"]⟩) :=
  c2_noOverlap_preserved ⟨["a"], ["b"]⟩ (Op.excl "a") (by decide)

/-- C3 (counterexample): if the path is already a member, Include is a no-op
(set semantics) but Deactivate still removes it, so the round-trip does not
restore the original lists. -/
theorem c3_counterexample :
    ¬ (deactivateOp "p" (includeOp "p" ⟨["p"], []⟩) = ⟨["p"], []⟩) := by
  decide

/-- C3 (amended): for every path not already present in `members` nor in
`exclude`, Include followed by Deactivate of the same resolved package
restores the manifest's member and exclude lists exactly. -/
theorem c3_roundtrip (m : Manifest) (p : String)
    (h1 : p ∉ m.members) (h2 : p ∉ m.exclude) :
    deactivateOp p (includeOp p m) = m := by
  obtain ⟨ms, es⟩ := m
  simp only [Manifest.members] at h1
  simp only [Manifest.exclude] at h2
  rw [includeOp]
  simp only
  rw [addIfAbsent, if_neg h1, removeAll_of_not_mem h2, deactivateOp]
  simp only [Manifest.mk.injEq]
  constructor
  · rw [removeAll_append, removeAll_singleton_self, removeAll_of_not_mem h1,
      List.append_nil]
  · exact removeAll_of_not_mem h2

/-- C3 (witness): the round-trip at a concrete manifest and a fresh path. -/
theorem c3_witness :
    deactivateOp "c" (includeOp "c" ⟨["a"], ["b"]⟩) = ⟨["a"], ["b"]⟩ :=
  c3_roundtrip ⟨["a"], ["b"]⟩ "c" (by decide) (by decide)

/-- C4: applying the same Include delta twice yields the same members/exclude
content as applying it once, and so does any `MembershipDelta` that satisfies
the data-model invariant (never adding and removing the same path within one
array — true of every delta the operations produce). -/
theorem c4_idempotent (m : Manifest) (p : String) (d : MembershipDelta)
    (h : wellFormedDelta d) :
    applyDelta (includeDelta p) (applyDelta (includeDelta p) m) =
        applyDelta (includeDelta p) m ∧
      applyDelta d (applyDelta d m) = applyDelta d m :=
  ⟨applyDelta_idem m (wellFormedDelta_includeDelta p), applyDelta_idem m h⟩

/-- C4 (witness): idempotence at a concrete manifest, path and delta. -/
theorem c4_witness :
    applyDelta (includeDelta "a") (applyDelta (includeDelta "a") ⟨["a"], ["b"]⟩) =
        applyDelta (includeDelta "a") ⟨["a"], ["b"]⟩ ∧
      applyDelta ⟨["x"], ["y"], [], []⟩ (applyDelta ⟨["x"], ["y"], [], []⟩ ⟨["a"], ["b"]⟩) =
        applyDelta ⟨["x"], ["y"], [], []⟩ ⟨["a"], ["b"]⟩ :=
  c4_idempotent ⟨["a"], ["b"]⟩ "a" ⟨["x"], ["y"], [], []⟩ (by decide)

/-- C5: under dry-run no manifest write and no filesystem change happens, and
the reported membership result is identical to what a non-dry-run invocation
on the same inputs would have applied. -/
theorem c5_dry_run (op : Op) (m : Manifest) :
    (execOp op true m).written = none ∧
      (execOp op true m).fsChanged = false ∧
      (execOp op true m).reported = (execOp op false m).reported :=
  ⟨rfl, rfl, rfl⟩

/-- C6: every subcommand that queries the workspace-metadata collaborator
(exclude, deactivate, focus, cp, rm, mv) passes `frozen = dry_run` and
`locked = dry_run`: both flags are enabled exactly when `--dry-run` is
requested and disabled otherwise. -/
theorem c6_frozen_locked :
    (∀ o : CargoMemberExclude,
        (excludeMetadataCall o).frozen = o.dry_run ∧
          (excludeMetadataCall o).locked = o.dry_run) ∧
      (∀ o : CargoMemberDeactivate,
        (deactivateMetadataCall o).frozen = o.dry_run ∧
          (deactivateMetadataCall o).locked = o.dry_run) ∧
      (∀ o : CargoMemberFocus,
        (focusMetadataCall o).frozen = o.dry_run ∧
          (focusMetadataCall o).locked = o.dry_run) ∧
      (∀ o : CargoMemberCp,
        (cpMetadataCall o).frozen = o.dry_run ∧
          (cpMetadataCall o).locked = o.dry_run) ∧
      (∀ o : CargoMemberRm,
        (rmMetadataCall o).frozen = o.dry_run ∧
          (rmMetadataCall o).locked = o.dry_run) ∧
      (∀ o : CargoMemberMv,
        (mvMetadataCall o).frozen = o.dry_run ∧
          (mvMetadataCall o).locked = o.dry_run) :=
  ⟨fun _ => ⟨rfl, rfl⟩, fun _ => ⟨rfl, rfl⟩, fun _ => ⟨rfl, rfl⟩,
    fun _ => ⟨rfl, rfl⟩, fun _ => ⟨rfl, rfl⟩, fun _ => ⟨rfl, rfl⟩⟩

/-- C7: on any fatal error the process exits with code 101 after writing
`error: ` followed by the top-level message, then for each remaining error of
the causal chain, in chain order, a `Caused by:` heading with that cause's
message. -/
theorem c7_exit_with_error (e : ErrorChain) :
    (exit_with_error e).2 = 101 ∧
      (exit_with_error e).1 =
        "error: " ++ e.message ++ "\n" ++
          String.join (e.causes.map (fun c => "\nCaused by:\n  " ++ c ++ "\n")) := by
  refine ⟨rfl, ?_⟩
  exact foldl_append_chunks (fun c => "\nCaused by:\n  " ++ c ++ "\n") e.causes
    ("error: " ++ e.message ++ "\n")

/-- C8: for every user-supplied relative path argument of every subcommand,
exactly the leading current-directory components are removed (other
components, `..` included, are untouched: the result is `dropWhile (= ".")`),
the remainder is joined onto the current working directory, and the trimmed
path never starts with a `.` marker. -/
theorem c8_path_resolution :
    (∀ p, trim_leading_dots p = p.dropWhile (fun c => c = ".")) ∧
      (∀ p, ((trim_leading_dots p).head? == some ".") = false) ∧
      (∀ cwd p, resolveArg cwd p = cwd ++ p.dropWhile (fun c => c = ".")) ∧
      (∀ cwd (o : CargoMemberInclude),
        includePathArgs cwd o = o.paths.map (resolveArg cwd)) ∧
      (∀ cwd (o : CargoMemberExclude),
        excludePathArgs cwd o = o.paths.map (resolveArg cwd)) ∧
      (∀ cwd (o : CargoMemberDeactivate),
        deactivatePathArgs cwd o = o.paths.map (resolveArg cwd)) ∧
      (∀ cwd (o : CargoMemberFocus), focusPathArg cwd o = resolveArg cwd o.path) ∧
      (∀ cwd (o : CargoMemberNew), newPathArg cwd o = resolveArg cwd o.path) ∧
      (∀ cwd (o : CargoMemberCp), cpDstArg cwd o = resolveArg cwd o.dst) ∧
      (∀ cwd (o : CargoMemberRm), rmPathArgs cwd o = o.paths.map (resolveArg cwd)) ∧
      (∀ cwd (o : CargoMemberMv), mvDstArg cwd o = resolveArg cwd o.dst) := by
  refine ⟨trim_leading_dots_eq_dropWhile, ?_, ?_, fun _ _ => rfl, fun _ _ => rfl,
    fun _ _ => rfl, fun _ _ => rfl, fun _ _ => rfl, fun _ _ => rfl, fun _ _ => rfl,
    fun _ _ => rfl⟩
  · intro p
    exact beq_eq_false_iff_ne.mpr (trim_leading_dots_head_ne_dot p)
  · intro cwd p
    rw [resolveArg, trim_leading_dots_eq_dropWhile]

/-- C9: a nonzero exit of `cargo locate-project` makes the whole resolution
fail at once with the captured standard error (trimmed, leading `error: `
markers stripped) as the message, and a successful exit whose output does not
parse fails with the parse error; in both cases `find_root_manifest`
propagates the failure unchanged — nothing is retried. -/
theorem c9_locate_failure (parse : String → Except String (List String))
    (out : CmdOutput) :
    (out.success = false →
        cargo_locate_project parse out =
            .error (stripErrorMarkersStr (trimEnd out.stderr)) ∧
          find_root_manifest parse out =
            .error (stripErrorMarkersStr (trimEnd out.stderr))) ∧
      (∀ e, out.success = true → parse (trimEnd out.stdout) = .error e →
        cargo_locate_project parse out = .error e ∧
          find_root_manifest parse out = .error e) := by
  constructor
  · intro h
    have hc : cargo_locate_project parse out =
        .error (stripErrorMarkersStr (trimEnd out.stderr)) := by
      rw [cargo_locate_project, h]
      simp
    refine ⟨hc, ?_⟩
    rw [find_root_manifest, hc]
  · intro e hs hp
    have hc : cargo_locate_project parse out = .error e := by
      rw [cargo_locate_project, hs, if_pos rfl, hp]
    refine ⟨hc, ?_⟩
    rw [find_root_manifest, hc]

/-- C9 (witness): a failing process with stderr `error: boom` yields the
fatal message `boom`, and a successful process with unparsable output yields
the parse error. -/
theorem c9_witness :
    cargo_locate_project (fun _ => Except.error "bad") ⟨false, "", "error: boom"⟩ =
        .error "boom" ∧
      find_root_manifest (fun _ => Except.error "bad") ⟨false, "", "error: boom"⟩ =
        .error "boom" ∧
      find_root_manifest (fun _ => Except.error "bad") ⟨true, "xyz", ""⟩ =
        .error "bad" := by
  have h1 := (c9_locate_failure (fun _ => Except.error "bad")
    ⟨false, "", "error: boom"⟩).1 rfl
  have h2 := (c9_locate_failure (fun _ => Except.error "bad")
    ⟨true, "xyz", ""⟩).2 "bad" rfl rfl
  refine ⟨?_, ?_, h2.2⟩
  · rw [h1.1]
    rfl
  · rw [h1.2]
    rfl

/-- C10: on a successful `cargo locate-project` response, `find_root_manifest`
returns the reported `root` path with its final component removed — the
directory containing the manifest file — and that directory is exactly the
workspace root the `include` driver hands to `Include::new`. -/
theorem c10_root_dir (parse : String → Except String (List String))
    (out : CmdOutput) (cwd : List String) (opt : CargoMemberInclude)
    (r : List String) (h : cargo_locate_project parse out = .ok r) :
    find_root_manifest parse out = .ok r.dropLast ∧
      ∀ inv, includeDriver parse out cwd opt = .ok inv →
        inv.workspace_root = r.dropLast := by
  have hf : find_root_manifest parse out = .ok r.dropLast := by
    rw [find_root_manifest, h]
  refine ⟨hf, ?_⟩
  intro inv hinv
  rw [includeDriver, hf] at hinv
  cases hinv
  rfl

/-- C10 (witness): a reported manifest path `w/Cargo.toml` yields workspace
root `w`, both from `find_root_manifest` and through the `include` driver. -/
theorem c10_witness :
    find_root_manifest (fun _ => Except.ok ["w", "Cargo.toml"]) ⟨true, "", ""⟩ =
        .ok ["w"] ∧
      ∀ inv, includeDriver (fun _ => Except.ok ["w", "Cargo.toml"]) ⟨true, "", ""⟩
          [] ⟨none, false, false, false, []⟩ = .ok inv →
        inv.workspace_root = ["w"] := by
  have h := c10_root_dir (fun _ => Except.ok ["w", "Cargo.toml"]) ⟨true, "", ""⟩
    [] ⟨none, false, false, false, []⟩ ["w", "Cargo.toml"] rfl
  exact h

end CargoMember
